import Mathlib

/-!
Verification development for the pennington_m110a_demod test and analysis
scripts.  Python byte strings are embedded as `List ℕ` (byte values) and
decoded text as `List Char`.  Each definition mirrors one function or code
block of the repository; the source file and lines are named in its doc
comment.
-/

set_option autoImplicit false

namespace M110A

/-- Number of position-wise byte mismatches between the received and sent
sequences, as computed by `sum(1 for a, b in zip(rx_data, test_data) if a != b)`
in src/server/test_afc.py line 128, src/server/test_2400s_afc.py line 137 and
src/server/test_awgn.py line 117.  `zip` stops at the shorter sequence. -/
def byteMismatches (rx tx : List ℕ) : ℕ :=
  ((rx.zip tx).filter (fun p => p.1 != p.2)).length

/-- Specification-side mismatch count: the number of positions i present in
both sequences (i < min of the lengths) where the bytes differ. -/
def mismatchCard (rx tx : List ℕ) : ℕ :=
  ((Finset.range (min rx.length tx.length)).filter
    (fun i => rx.getD i 0 ≠ tx.getD i 0)).card

/-- Number of non-zero bytes in a sequence, as computed by
`sum(1 for b in trailing if b != 0)` in src/server/test_afc.py line 115 and
src/server/test_2400s_afc.py line 129. -/
def nonZeroCount (l : List ℕ) : ℕ :=
  (l.filter (fun b => b != 0)).length

/-- Outcome of the verdict block of `test_freq_offset`
(src/server/test_afc.py lines 110-135).  The constructors carry the numbers
the script prints: trailing length, garbage-byte count, or byte-error count. -/
inductive AfcResult where
  | passExact : AfcResult
  | passTrailing (trailing : ℕ) : AfcResult
  | failGarbage (nonZero : ℕ) : AfcResult
  | failBer (errors : ℕ) : AfcResult
  | failNoData : AfcResult
deriving DecidableEq

/-- Whether an `AfcResult` is one of the two branches in which
`test_freq_offset` prints PASS and returns True. -/
def AfcResult.isPass : AfcResult → Bool
  | .passExact => true
  | .passTrailing _ => true
  | _ => false

/-- Verdict logic of `test_freq_offset` (src/server/test_afc.py lines 110-135):
exact match passes; otherwise, when the received data is non-empty and starts
with the sent message, at most 5 non-zero trailing bytes pass and more fail;
otherwise non-empty data fails with a byte-error count of the zip mismatches
plus `max(0, len(test_data) - len(rx_data))` (truncated subtraction on ℕ);
empty data fails with no count. -/
def test_freq_offset_verdict (testData rxData : List ℕ) : AfcResult :=
  if rxData = testData then
    .passExact
  else if rxData ≠ [] ∧ rxData.take testData.length = testData then
    let trailing := rxData.drop testData.length
    let nz := nonZeroCount trailing
    if nz ≤ 5 then .passTrailing trailing.length else .failGarbage nz
  else if rxData ≠ [] then
    .failBer (byteMismatches rxData testData + (testData.length - rxData.length))
  else
    .failNoData

/-- Outcome of the result block of `test_with_verbose`
(src/server/test_2400s_afc.py lines 125-143): "PASS!", the
"PARTIAL - Data correct but N non-zero bytes after" message, or
"FAIL - N byte differences". -/
inductive Afc2400Result where
  | passOk : Afc2400Result
  | noisyTrailing (nonZero : ℕ) : Afc2400Result
  | failDiff (errors : ℕ) : Afc2400Result
deriving DecidableEq

/-- Result logic of `test_with_verbose` (src/server/test_2400s_afc.py
lines 125-143): when the received data starts with the sent message, zero
non-zero trailing bytes print "PASS!" and any other count prints the
"PARTIAL" message; the `elif rx_data == test_data` branch is subsumed by the
first test; otherwise the script prints FAIL with the zip mismatches plus
`abs(len(rx_data) - len(test_data))`. -/
def test_with_verbose_result (testData rxData : List ℕ) : Afc2400Result :=
  if rxData.take testData.length = testData then
    let nz := nonZeroCount (rxData.drop testData.length)
    if nz = 0 then .passOk else .noisyTrailing nz
  else if rxData = testData then
    .passOk
  else
    .failDiff (byteMismatches rxData testData +
      ((rxData.length : ℤ) - (testData.length : ℤ)).natAbs)

/-- Outcome of the check block of `test_awgn`
(src/server/test_awgn.py lines 113-119). -/
inductive AwgnResult where
  | pass : AwgnResult
  | fail (errors : ℕ) : AwgnResult
deriving DecidableEq

/-- Verdict logic of `test_awgn` (src/server/test_awgn.py lines 113-119):
PASS when the received data starts with the sent message, otherwise FAIL with
the zip mismatch count (no penalty for missing bytes). -/
def test_awgn_verdict (testData rxData : List ℕ) : AwgnResult :=
  if rxData.take testData.length = testData then
    .pass
  else
    .fail (byteMismatches rxData testData)

/-- The fixed message `b"Test Message 12345"` sent by `test_awgn`
(src/server/test_awgn.py line 43). -/
def awgnTestData : List ℕ :=
  ("Test Message 12345".data.map Char.toNat)

/-- Whether `needle` occurs in `hay` starting at position `i` (used to model
Python `str.find` and the `in` operator on strings and byte strings). -/
def subAt (needle hay : List Char) (i : ℕ) : Bool :=
  (hay.drop i).take needle.length = needle

/-- Python `hay.find(needle)`: the least index at which `needle` occurs, or
`none` when Python would return -1. -/
def pyFind (hay needle : List Char) : Option ℕ :=
  (List.range (hay.length + 1)).find? (subAt needle hay)

/-- Python `needle in hay` on strings and byte strings. -/
def pyContains (hay needle : List Char) : Bool :=
  (pyFind hay needle).isSome

/-- Specification-side substring containment: `hay` splits as
`s ++ needle ++ t`. -/
def ContainsSub (hay needle : List Char) : Prop :=
  ∃ s t, hay = s ++ needle ++ t

/-- Python `str.strip()` whitespace test, restricted to the ASCII whitespace
characters relevant to the control-port protocol. -/
def pyIsSpace (c : Char) : Bool :=
  c = ' ' ∨ c = '\t' ∨ c = '\n' ∨ c = '\r' ∨ c = '\x0b' ∨ c = '\x0c'

/-- Python `s.strip()`: remove leading and trailing whitespace. -/
def pyStrip (s : List Char) : List Char :=
  ((s.dropWhile pyIsSpace).reverse.dropWhile pyIsSpace).reverse

/-- The marker text `FILE:` searched for on the control port
(src/server/test_afc.py line 60, src/server/test_awgn.py line 57,
src/server/debug_tcp.py line 71). -/
def fileMarker : List Char := "FILE:".data

/-- The completion marker `OK:SENDBUFFER` that breaks the wait loop
(src/server/test_afc.py line 66). -/
def okSendbuffer : List Char := "OK:SENDBUFFER".data

/-- Filename extraction performed when a chunk contains the marker
(src/server/test_afc.py lines 60-64):
`text = chunk.decode(); idx = text.find('FILE:');`
`pcm_file = text[idx+5:].strip().split('\n')[0]`.  Taking element 0 of
`split('\n')` is the part before the first newline, embedded with
`takeWhile`.  Returns `none` when `'FILE:' in chunk` is false. -/
def extractFile (chunk : List Char) : Option (List Char) :=
  match pyFind chunk fileMarker with
  | none => none
  | some idx =>
      some ((pyStrip (chunk.drop (idx + 5))).takeWhile (fun c => c ≠ '\n'))

/-- The transmit-capture wait loop of `test_freq_offset`
(src/server/test_afc.py lines 52-67; the identical loop appears in
src/server/test_awgn.py lines 50-67 and src/server/debug_tcp.py lines 63-83).
Each element of `chunks` is one successful `ctrl.recv(4096)` before the
15-second deadline; exhausting the list models the deadline or a timeout.
For each truthy chunk the script appends it to `response`, re-assigns
`pcm_file` when `b'FILE:' in chunk` holds, and breaks once
`b'OK:SENDBUFFER' in response`. -/
def waitLoop : List (List Char) → List Char → Option (List Char) →
    Option (List Char)
  | [], _, pcmFile => pcmFile
  | chunk :: rest, response, pcmFile =>
      if chunk = [] then
        waitLoop rest response pcmFile
      else
        let response' := response ++ chunk
        let pcmFile' := match extractFile chunk with
          | some f => some f
          | none => pcmFile
        if pyContains response' okSendbuffer then pcmFile'
        else waitLoop rest response' pcmFile'

/-- The wait loop started from its initial state
(`response = b''`, `pcm_file = None`). -/
def waitForPcmFile (chunks : List (List Char)) : Option (List Char) :=
  waitLoop chunks [] none

/-- The expected-content check of `test_mode`
(src/test_ref_pcm.py lines 146-148):
`has_expected_content = "QUICK BROWN FOX" in decoded or`
`"THE QUICK BROWN FOX" in decoded; success = len(decoded) > 0 and`
`has_expected_content`. -/
def test_mode_success (decoded : List Char) : Bool :=
  decide (0 < decoded.length) &&
    (pyContains decoded "QUICK BROWN FOX".data ||
     pyContains decoded "THE QUICK BROWN FOX".data)

/-- The large-RMS-difference issue check of `compare`
(src/compare_pcm.py lines 117-122): only evaluated when `b['rms'] > 0`, and
flagged when `rms_ratio < 0.5 or rms_ratio > 2.0` with
`rms_ratio = a['rms'] / b['rms']`.  RMS levels are embedded as exact
rationals; 0.5 and 2.0 are exactly representable floats. -/
def largeRmsDifference (rmsA rmsB : ℚ) : Bool :=
  if 0 < rmsB then
    let ratio := rmsA / rmsB
    decide (ratio < 1/2) || decide (2 < ratio)
  else
    false

/-- One little-endian signed 16-bit sample, as produced by
`struct.unpack('<Nh', data)` on a byte pair. -/
def decodeI16 (lo hi : ℕ) : ℤ :=
  let v : ℤ := lo + 256 * hi
  if v < 32768 then v else v - 65536

/-- Decode consecutive byte pairs into int16 samples; a stray final byte is
ignored here because `struct.unpack` has already rejected it. -/
def bytesToSamples : List ℕ → List ℤ
  | lo :: hi :: rest => decodeI16 lo hi :: bytesToSamples rest
  | _ => []

/-- The exactly-representable fields of the report dictionary built by
`analyze_pcm` (src/compare_pcm.py lines 59-83).  The float- and FFT-valued
fields (`rms`, `crest_factor`, the frequency estimates and `top_freqs`) are
numerical and are not carried in the embedded record; no settled claim
references their values, and the spectral peak selection is embedded
separately on the magnitude array (see `top_freqs_of`). -/
structure PcmReport where
  size : ℕ
  samples : ℕ
  durationSec : ℚ
  minSample : ℤ
  maxSample : ℤ
  dcOffset : ℚ
  peak : ℕ
  silent : ℕ
  low : ℕ
  med : ℕ
  high : ℕ
  silentPct : ℚ
  lowPct : ℚ
  medPct : ℚ
  highPct : ℚ

/-- The analyzer `analyze_pcm` (src/compare_pcm.py lines 9-83) embedded with
its failure conditions.  `num_samples = len(data) // 2`;
`struct.unpack(f'<{num_samples}h', data)` raises `struct.error` whenever the
buffer length is not exactly `2 * num_samples` (line 13: an odd stray byte is
not dropped); `np.min` / `np.max` raise on the empty sample array (lines
17-18); `np.argmax(magnitude[10:])` (line 46) raises on an empty slice, and
`np.fft.rfft` yields `num_samples // 2 + 1` magnitude bins.  All other
operations on a non-empty sample array succeed, so the function returns a
report exactly when none of these three conditions fires. -/
def analyze_pcm (data : List ℕ) : Option PcmReport :=
  let numSamples := data.length / 2
  if data.length ≠ 2 * numSamples then none
  else if numSamples = 0 then none
  else if numSamples / 2 + 1 ≤ 10 then none
  else
    let samples := bytesToSamples data
    let minSample := samples.foldl min (samples.headD 0)
    let maxSample := samples.foldl max (samples.headD 0)
    let silent := (samples.filter (fun s => s.natAbs < 100)).length
    let low := (samples.filter (fun s => 100 ≤ s.natAbs ∧ s.natAbs < 3000)).length
    let med := (samples.filter (fun s => 3000 ≤ s.natAbs ∧ s.natAbs < 10000)).length
    let high := (samples.filter (fun s => 10000 ≤ s.natAbs)).length
    some
      { size := data.length
        samples := numSamples
        durationSec := (numSamples : ℚ) / 48000
        minSample := minSample
        maxSample := maxSample
        dcOffset := ((samples.foldl (· + ·) 0 : ℤ) : ℚ) / (numSamples : ℚ)
        peak := max minSample.natAbs maxSample.natAbs
        silent := silent
        low := low
        med := med
        high := high
        silentPct := 100 * (silent : ℚ) / (numSamples : ℚ)
        lowPct := 100 * (low : ℚ) / (numSamples : ℚ)
        medPct := 100 * (med : ℚ) / (numSamples : ℚ)
        highPct := 100 * (high : ℚ) / (numSamples : ℚ) }

/-- Insert index `i` into a list of indices held in decreasing order of
magnitude: `i` goes in front of the first strictly smaller magnitude.
Magnitudes are looked up with `getD` (indices come from `List.range`, so they
are in bounds). -/
def insDesc (mags : List ℚ) (i : ℕ) : List ℕ → List ℕ
  | [] => [i]
  | j :: rest =>
      if mags.getD j 0 < mags.getD i 0 then i :: j :: rest
      else j :: insDesc mags i rest

/-- Indices of `mags` sorted by decreasing magnitude, modelling
`np.argsort(magnitude)[::-1]`.  numpy's default quicksort leaves the order of
equal magnitudes unspecified; this embedding breaks ties by smaller index
first, and the theorems below that depend on a concrete order use distinct
magnitudes. -/
def argsortDesc (mags : List ℚ) : List ℕ :=
  (List.range mags.length).foldl (fun acc i => insDesc mags i acc) []

/-- The spectral peak selection of `analyze_pcm`
(src/compare_pcm.py lines 50-52 and 75):
`top_indices = np.argsort(magnitude)[-10:][::-1]` (the ten largest bins in
decreasing magnitude), then
`top_freqs = [(freqs[i], magnitude[i]) for i in top_indices if freqs[i] > 100]`
and the report stores `top_freqs[:5]`.  The magnitude and frequency arrays
are the `np.abs(np.fft.rfft(samples))` and `np.fft.rfftfreq` values of the
capture, taken here as inputs. -/
def top_freqs_of (mags freqs : List ℚ) : List (ℚ × ℚ) :=
  let topIndices := (argsortDesc mags).take 10
  ((topIndices.filter (fun i => decide (100 < freqs.getD i 0))).map
    (fun i => (freqs.getD i 0, mags.getD i 0))).take 5

/-- Modelled from the spec's words (the sentence "top-5 spectral peaks are
the five largest-magnitude bins above 100 Hz"): keep every bin above 100 Hz,
in decreasing magnitude, and take the first five.  This is the comparison
definition for the refinement claim about `top_freqs_of`. -/
def specTopFreqs (mags freqs : List ℚ) : List (ℚ × ℚ) :=
  (((argsortDesc mags).filter (fun i => decide (100 < freqs.getD i 0))).map
    (fun i => (freqs.getD i 0, mags.getD i 0))).take 5

/-- Python `int()` applied to a non-negative or negative rational: truncation
toward zero. -/
def pyInt (x : ℚ) : ℤ :=
  if 0 ≤ x then ⌊x⌋ else ⌈x⌉

/-- The samples-per-symbol computation of `analyze_preamble`
(src/analyze_preamble.py line 19):
`samples_per_symbol = int(sample_rate / baud_rate)`. -/
def samples_per_symbol (sample_rate baud_rate : ℚ) : ℤ :=
  pyInt (sample_rate / baud_rate)

/-- numpy `np.round` on an exact rational: round half to even. -/
def npRound (x : ℚ) : ℤ :=
  let n := ⌊x⌋
  if x - n < 1/2 then n
  else if 1/2 < x - n then n + 1
  else if 2 ∣ n then n else n + 1

/-- numpy `np.angle` in degrees for a non-zero sample given in polar form:
the principal value in (-180, 180] of a phase given in [0, 360), independent
of the sample's magnitude (src/analyze_preamble.py line 62,
`phases = np.angle(symbols) * 180 / np.pi`). -/
def npAngleDeg (phaseDeg : ℚ) : ℚ :=
  if phaseDeg ≤ 180 then phaseDeg else phaseDeg - 360

/-- The 8-PSK symbol mapping of `analyze_preamble`
(src/analyze_preamble.py lines 62-63):
`psk8_symbols = np.round(phases / 45) % 8`.  A non-zero complex baseband
sample is given in polar form by its amplitude and its phase in degrees in
[0, 360); `np.angle` ignores the amplitude, so the amplitude argument is
unused. -/
def psk8Symbol (amplitude phaseDeg : ℚ) : ℤ :=
  npRound (npAngleDeg phaseDeg / 45) % 8

/-- The zip-based mismatch count of the scripts equals the number of
positions present in both sequences where the bytes differ. -/
theorem byteMismatches_eq_card (rx tx : List ℕ) :
    byteMismatches rx tx = mismatchCard rx tx := by
  induction rx generalizing tx with
  | nil => simp [byteMismatches, mismatchCard]
  | cons a rx ih =>
    cases tx with
    | nil => simp [byteMismatches, mismatchCard]
    | cons b tx =>
      have hmin : min (a :: rx).length (b :: tx).length
          = min rx.length tx.length + 1 := by
        simp [Nat.succ_min_succ]
      have hL : byteMismatches (a :: rx) (b :: tx)
          = (if (a != b) = true then 1 else 0) + byteMismatches rx tx := by
        simp only [byteMismatches, List.zip_cons_cons, List.filter_cons]
        by_cases hab : (a != b) = true
        · simp [hab, Nat.add_comm]
        · simp [hab]
      rw [hL, ih tx, mismatchCard, mismatchCard, hmin, Finset.card_filter,
        Finset.card_filter, Finset.sum_range_succ']
      simp only [List.getD_cons_succ, List.getD_cons_zero]
      by_cases hab : a = b
      · simp [hab]
      · simp [hab, bne_iff_ne, Ne, add_comm]

/-- Claim C2 counterexample: with sent message S = [1] and received
R = [1, 2], R starts with S, is longer, and has exactly one non-zero trailing
byte (at most 5), so the claim demands PASS in both AFC sweep variants; the
2400S variant instead reports the PARTIAL outcome, which is not PASS. -/
theorem c2_cex :
    [1, 2].take [1].length = [1] ∧
    [1].length < [1, 2].length ∧
    nonZeroCount ([1, 2].drop [1].length) = 1 ∧
    nonZeroCount ([1, 2].drop [1].length) ≤ 5 ∧
    test_with_verbose_result [1] [1, 2] = .noisyTrailing 1 ∧
    Afc2400Result.noisyTrailing 1 ≠ .passOk := by
  decide

/-- Claim C2 amended: for received bytes that start with the sent message and
are longer, `test_afc.py` passes exactly when at most 5 trailing bytes are
non-zero (and fails otherwise), while `test_2400s_afc.py` prints PASS exactly
when every trailing byte is zero and otherwise prints the PARTIAL message
(neither PASS nor FAIL) carrying the non-zero count. -/
theorem c2_thm (S R : List ℕ) (hpre : R.take S.length = S)
    (hlen : S.length < R.length) :
    ((test_freq_offset_verdict S R).isPass = true ↔
      nonZeroCount (R.drop S.length) ≤ 5) ∧
    (test_with_verbose_result S R = .passOk ↔
      nonZeroCount (R.drop S.length) = 0) ∧
    (nonZeroCount (R.drop S.length) ≠ 0 →
      test_with_verbose_result S R = .noisyTrailing
        (nonZeroCount (R.drop S.length))) := by
  have hne : R ≠ [] := by
    intro h
    subst h
    simp at hlen
  have hRS : R ≠ S := by
    intro h
    subst h
    exact lt_irrefl _ hlen
  refine ⟨?_, ?_, ?_⟩
  · rw [test_freq_offset_verdict, if_neg hRS, if_pos ⟨hne, hpre⟩]
    by_cases h5 : nonZeroCount (R.drop S.length) ≤ 5
    · simp [h5, AfcResult.isPass]
    · simp [h5, AfcResult.isPass]
  · rw [test_with_verbose_result, if_pos hpre]
    by_cases h0 : nonZeroCount (R.drop S.length) = 0
    · simp [h0]
    · simp [h0]
  · intro h0
    rw [test_with_verbose_result, if_pos hpre, if_neg h0]

/-- Witness for `c2_thm` at S = [1], R = [1, 0, 0]. -/
theorem c2_thm_witness :
    ((test_freq_offset_verdict [1] [1, 0, 0]).isPass = true ↔
      nonZeroCount ([1, 0, 0].drop [1].length) ≤ 5) ∧
    (test_with_verbose_result [1] [1, 0, 0] = .passOk ↔
      nonZeroCount ([1, 0, 0].drop [1].length) = 0) ∧
    (nonZeroCount ([1, 0, 0].drop [1].length) ≠ 0 →
      test_with_verbose_result [1] [1, 0, 0] = .noisyTrailing
        (nonZeroCount ([1, 0, 0].drop [1].length))) :=
  c2_thm [1] [1, 0, 0] (by decide) (by decide)

/-- Claim C4 counterexample: with S = [1, 2] and R = [3, 4, 5] (disjoint, R
longer), the claim's formula gives 2 mismatches plus no shortfall, but the
2400S variant reports 3 byte differences: the received byte beyond len(S)
contributes one error there. -/
theorem c4_cex :
    [3, 4, 5].take [1, 2].length ≠ [1, 2] ∧
    ([3, 4, 5] : List ℕ) ≠ [1, 2] ∧
    mismatchCard [3, 4, 5] [1, 2] + ([1, 2].length - [3, 4, 5].length) = 2 ∧
    test_with_verbose_result [1, 2] [3, 4, 5] = .failDiff 3 ∧
    (3 : ℕ) ≠ 2 := by
  decide

/-- Claim C4 amended: when the received bytes do not start with the sent
message, `test_afc.py` reports mismatches over the common prefix plus the
length shortfall max(0, len(S) - len(R)) — received bytes beyond len(S)
contribute nothing — while `test_2400s_afc.py` reports mismatches plus the
absolute length difference, so there every received byte beyond len(S) adds
one.  For completely disjoint S and R of equal length both counts equal
len(S). -/
theorem c4_thm (S R : List ℕ) (hne : R ≠ [])
    (hpre : R.take S.length ≠ S) :
    test_freq_offset_verdict S R
      = .failBer (mismatchCard R S + (S.length - R.length)) ∧
    test_with_verbose_result S R
      = .failDiff (mismatchCard R S +
          ((R.length : ℤ) - (S.length : ℤ)).natAbs) ∧
    (R.length = S.length → (∀ i < S.length, R.getD i 0 ≠ S.getD i 0) →
      test_freq_offset_verdict S R = .failBer S.length ∧
      test_with_verbose_result S R = .failDiff S.length) := by
  have hRS : R ≠ S := by
    intro h
    subst h
    exact hpre (by simp)
  have h1 : test_freq_offset_verdict S R
      = .failBer (mismatchCard R S + (S.length - R.length)) := by
    rw [test_freq_offset_verdict, if_neg hRS,
      if_neg (by simp [hpre]), if_pos hne, byteMismatches_eq_card]
  have h2 : test_with_verbose_result S R
      = .failDiff (mismatchCard R S +
          ((R.length : ℤ) - (S.length : ℤ)).natAbs) := by
    rw [test_with_verbose_result, if_neg hpre, if_neg hRS,
      byteMismatches_eq_card]
  refine ⟨h1, h2, fun hlen hdis => ?_⟩
  have hcard : mismatchCard R S = S.length := by
    rw [mismatchCard, hlen, min_self]
    rw [Finset.filter_true_of_mem, Finset.card_range]
    intro i hi
    exact hdis i (Finset.mem_range.mp hi)
  constructor
  · rw [h1, hcard, hlen, Nat.sub_self, Nat.add_zero]
  · rw [h2, hcard, hlen, sub_self, Int.natAbs_zero, Nat.add_zero]

/-- Witness for `c4_thm` at S = [1, 2], R = [9, 9]. -/
theorem c4_thm_witness :
    test_freq_offset_verdict [1, 2] [9, 9]
      = .failBer (mismatchCard [9, 9] [1, 2] + ([1, 2].length - [9, 9].length)) ∧
    test_with_verbose_result [1, 2] [9, 9]
      = .failDiff (mismatchCard [9, 9] [1, 2] +
          (([9, 9].length : ℤ) - ([1, 2].length : ℤ)).natAbs) ∧
    ([9, 9].length = [1, 2].length →
      (∀ i < [1, 2].length, [9, 9].getD i 0 ≠ [1, 2].getD i 0) →
      test_freq_offset_verdict [1, 2] [9, 9] = .failBer [1, 2].length ∧
      test_with_verbose_result [1, 2] [9, 9] = .failDiff [1, 2].length) :=
  c4_thm [1, 2] [9, 9] (by decide) (by decide)

/-- Claim C10: in the AWGN test, any received data that fails the
starts-with check yields FAIL with the mismatch count taken only over
positions present in both sequences; in particular zero received bytes give
FAIL with a reported count of 0 (no penalty for missing bytes). -/
theorem c10_thm (R : List ℕ)
    (h : R.take awgnTestData.length ≠ awgnTestData) :
    test_awgn_verdict awgnTestData R = .fail (mismatchCard R awgnTestData) ∧
    test_awgn_verdict awgnTestData [] = .fail 0 ∧
    mismatchCard [] awgnTestData = 0 := by
  refine ⟨?_, ?_, ?_⟩
  · rw [test_awgn_verdict, if_neg h, byteMismatches_eq_card]
  · decide
  · decide

/-- Witness for `c10_thm` at R = [7]. -/
theorem c10_thm_witness :
    test_awgn_verdict awgnTestData [7]
      = .fail (mismatchCard [7] awgnTestData) ∧
    test_awgn_verdict awgnTestData [] = .fail 0 ∧
    mismatchCard [] awgnTestData = 0 :=
  c10_thm [7] (by decide)

/-- If no chunk triggers filename extraction, the wait loop ends with no
filename, from any accumulated response. -/
theorem waitLoop_none (chunks : List (List Char)) (response : List Char)
    (h : ∀ c ∈ chunks, extractFile c = none) :
    waitLoop chunks response none = none := by
  induction chunks generalizing response with
  | nil => rfl
  | cons c rest ih =>
    have hc : extractFile c = none := h c (by simp)
    have hrest : ∀ d ∈ rest, extractFile d = none :=
      fun d hd => h d (by simp [hd])
    rw [waitLoop]
    by_cases hce : c = []
    · rw [if_pos hce]
      exact ih response hrest
    · rw [if_neg hce]
      simp only [hc]
      by_cases hok : pyContains (response ++ c) okSendbuffer = true
      · simp [hok]
      · simp only [hok, if_false, Bool.false_eq_true]
        exact ih (response ++ c) hrest

/-- Claim C1 counterexample: the same control-port byte stream, containing
FILE:foo.pcm followed by end of line before the OK:SENDBUFFER break, yields
the filename when delivered as one recv chunk but no filename when the bytes
of FILE: arrive split across two chunks, because the scripts test
b'FILE:' in chunk against each chunk alone. -/
theorem c1_cex :
    waitForPcmFile ["XFIL".data, "E:foo.pcm\nOK:SENDBUFFER\n".data]
      = none ∧
    pyContains ("XFIL".data ++ "E:foo.pcm\nOK:SENDBUFFER\n".data)
      fileMarker = true ∧
    waitForPcmFile ["XFILE:foo.pcm\nOK:SENDBUFFER\n".data]
      = some "foo.pcm".data := by
  decide

/-- Claim C1 amended: the wait loop extracts a capture filename only when the
five marker bytes FILE: occur inside a single recv chunk; whenever no
individual chunk contains the marker, the loop ends with no filename, even if
the concatenated response contains FILE:(path) before the deadline. -/
theorem c1_thm (chunks : List (List Char))
    (h : ∀ c ∈ chunks, pyContains c fileMarker = false) :
    waitForPcmFile chunks = none := by
  apply waitLoop_none
  intro c hc
  have hcc := h c hc
  rw [pyContains] at hcc
  rw [extractFile]
  cases hf : pyFind c fileMarker with
  | none => rfl
  | some idx =>
      rw [hf] at hcc
      simp at hcc

/-- Witness for `c1_thm` on a two-chunk stream without the marker. -/
theorem c1_thm_witness :
    waitForPcmFile ["HELLO".data, "WORLD".data] = none :=
  c1_thm ["HELLO".data, "WORLD".data] (by decide)

/-- Python substring membership agrees with the splitting characterization. -/
theorem pyContains_iff (hay needle : List Char) :
    pyContains hay needle = true ↔ ContainsSub hay needle := by
  unfold pyContains pyFind
  rw [Option.isSome_iff_exists]
  constructor
  · rintro ⟨i, hfind⟩
    have hmem := List.find?_some hfind
    have hsub : (hay.drop i).take needle.length = needle := by
      simpa [subAt] using hmem
    refine ⟨hay.take i, (hay.drop i).drop needle.length, ?_⟩
    calc hay = hay.take i ++ hay.drop i := (List.take_append_drop i hay).symm
      _ = hay.take i ++ ((hay.drop i).take needle.length ++
            (hay.drop i).drop needle.length) := by
          rw [List.take_append_drop needle.length (hay.drop i)]
      _ = hay.take i ++ needle ++ (hay.drop i).drop needle.length := by
          rw [hsub, List.append_assoc]
  · rintro ⟨s, t, rfl⟩
    have hp : subAt needle (s ++ needle ++ t) s.length = true := by
      have hdrop : (s ++ needle ++ t).drop s.length = needle ++ t := by
        rw [List.append_assoc, List.drop_left]
      simp [subAt, hdrop, List.take_left]
    have hmem : s.length ∈ List.range ((s ++ needle ++ t).length + 1) := by
      simp [List.length_append]
      omega
    rcases List.find?_isSome.mpr ⟨s.length, hmem, hp⟩ |> Option.isSome_iff_exists.mp
      with ⟨i, hi⟩
    exact ⟨i, hi⟩

/-- Claim C6: the reference-suite verdict is PASS exactly when the decoded
text is non-empty and contains the substring QUICK BROWN FOX; the second
disjunct of the source (THE QUICK BROWN FOX) is subsumed by the first. -/
theorem c6_thm (decoded : List Char) :
    test_mode_success decoded = true ↔
      0 < decoded.length ∧ ContainsSub decoded "QUICK BROWN FOX".data := by
  unfold test_mode_success
  rw [Bool.and_eq_true, Bool.or_eq_true, decide_eq_true_iff,
    pyContains_iff, pyContains_iff]
  constructor
  · rintro ⟨hlen, hqbf | hthe⟩
    · exact ⟨hlen, hqbf⟩
    · rcases hthe with ⟨s, t, hsplit⟩
      refine ⟨hlen, s ++ "THE ".data, t, ?_⟩
      rw [hsplit]
      have : "THE QUICK BROWN FOX".data
          = "THE ".data ++ "QUICK BROWN FOX".data := by decide
      rw [this]
      simp [List.append_assoc]
  · rintro ⟨hlen, hqbf⟩
    exact ⟨hlen, Or.inl hqbf⟩

/-- Claim C3 counterexample: RMS pairs with ratio exactly 0.5 (1 against 2)
and exactly 2.0 (4 against 2) do not raise the large-RMS-difference flag,
though the claim requires the flag at both boundary ratios. -/
theorem c3_cex :
    (0 : ℚ) < 2 ∧
    (1 : ℚ) / 2 = 1 / 2 ∧ largeRmsDifference 1 2 = false ∧
    (4 : ℚ) / 2 = 2 ∧ largeRmsDifference 4 2 = false := by
  refine ⟨by norm_num, by norm_num, ?_, by norm_num, ?_⟩
  · simp only [largeRmsDifference]
    norm_num
  · simp only [largeRmsDifference]
    norm_num

/-- Claim C3 amended: with a positive second RMS, the large-RMS-difference
flag is raised exactly for ratios strictly below 0.5 or strictly above 2.0;
ratios in the closed interval from 0.5 to 2.0, the endpoints included, never
raise it. -/
theorem c3_thm (rmsA rmsB : ℚ) (hb : 0 < rmsB) :
    largeRmsDifference rmsA rmsB = true ↔
      rmsA / rmsB < 1 / 2 ∨ 2 < rmsA / rmsB := by
  unfold largeRmsDifference
  rw [if_pos hb]
  simp

/-- Witness for `c3_thm` at RMS values 1 and 3. -/
theorem c3_thm_witness : largeRmsDifference 1 3 = true :=
  (c3_thm 1 3 (by norm_num)).mpr (Or.inl (by norm_num))

/-- Claim C5 counterexample: a 16-bin spectrum (bin spacing 10 Hz, distinct
magnitudes) in which the eleven largest-magnitude bins all lie at or below
100 Hz.  Five bins above 100 Hz exist, yet the analyzer's reported list is
empty, because the greater-than-100-Hz filter is applied only to the ten
largest bins overall; the five largest bins above 100 Hz are the
specification's answer. -/
theorem c5_cex :
    (((List.range ([(0 : ℚ), 10, 20, 30, 40, 50, 60, 70, 80, 90, 100,
          110, 120, 130, 140, 150].length)).filter
        (fun i => decide (100 < ([(0 : ℚ), 10, 20, 30, 40, 50, 60, 70, 80,
          90, 100, 110, 120, 130, 140, 150].getD i 0)))).length = 5) ∧
    top_freqs_of
      [100, 101, 102, 103, 104, 105, 106, 107, 108, 109, 110, 1, 2, 3, 4, 5]
      [0, 10, 20, 30, 40, 50, 60, 70, 80, 90, 100, 110, 120, 130, 140, 150]
      = [] ∧
    specTopFreqs
      [100, 101, 102, 103, 104, 105, 106, 107, 108, 109, 110, 1, 2, 3, 4, 5]
      [0, 10, 20, 30, 40, 50, 60, 70, 80, 90, 100, 110, 120, 130, 140, 150]
      = [(150, 5), (140, 4), (130, 3), (120, 2), (110, 1)] ∧
    ([] : List (ℚ × ℚ))
      ≠ [(150, 5), (140, 4), (130, 3), (120, 2), (110, 1)] := by
  decide

/-- Claim C5 amended: the reported top-5 peak list draws only from the ten
largest-magnitude bins overall; it equals the five largest-magnitude bins
above 100 Hz (in decreasing magnitude) exactly in the cases where at least
five of those ten largest bins lie above 100 Hz, and otherwise falls short
even when five bins above 100 Hz exist. -/
theorem c5_thm (mags freqs : List ℚ)
    (h : 5 ≤ (((argsortDesc mags).take 10).filter
        (fun i => decide (100 < freqs.getD i 0))).length) :
    top_freqs_of mags freqs = specTopFreqs mags freqs := by
  unfold top_freqs_of specTopFreqs
  conv_rhs => rw [← List.take_append_drop 10 (argsortDesc mags)]
  rw [List.filter_append, List.map_append,
    List.take_append_of_le_length (by simpa using h)]

/-- Witness for `c5_thm`: a spectrum whose ten largest bins all lie above
100 Hz. -/
theorem c5_thm_witness :
    top_freqs_of [10, 20, 30, 40, 50, 60, 70, 80, 90, 100, 110]
      [200, 210, 220, 230, 240, 250, 260, 270, 280, 290, 300]
      = specTopFreqs [10, 20, 30, 40, 50, 60, 70, 80, 90, 100, 110]
      [200, 210, 220, 230, 240, 250, 260, 270, 280, 290, 300] :=
  c5_thm [10, 20, 30, 40, 50, 60, 70, 80, 90, 100, 110]
    [200, 210, 220, 230, 240, 250, 260, 270, 280, 290, 300] (by decide)

/-- Claim C8 counterexample: at sample_rate 50000 and baud_rate 2400 the
ratio is 125/6; `int()` truncates it to 20 while the nearest integer is 21. -/
theorem c8_cex :
    samples_per_symbol 50000 2400 = 20 ∧
    round ((50000 : ℚ) / 2400) = 21 ∧
    (20 : ℤ) ≠ 21 := by
  refine ⟨?_, ?_, by decide⟩
  · unfold samples_per_symbol pyInt
    rw [if_pos (by norm_num)]
    norm_num
  · rw [round_eq]
    rw [show (50000 : ℚ) / 2400 + 1 / 2 = 64 / 3 by norm_num]
    rw [Int.floor_eq_iff]
    norm_num

/-- Claim C8 amended: for positive sample and baud rates the preamble
decoder's samples-per-symbol count is the ratio truncated toward zero (the
floor, since the ratio is positive), not the nearest integer; at the default
48000 Hz and 2400 baud it equals 20. -/
theorem c8_thm (sample_rate baud_rate : ℚ) (hsr : 0 < sample_rate)
    (hbr : 0 < baud_rate) :
    samples_per_symbol sample_rate baud_rate = ⌊sample_rate / baud_rate⌋ ∧
    samples_per_symbol 48000 2400 = 20 := by
  constructor
  · unfold samples_per_symbol pyInt
    rw [if_pos (le_of_lt (div_pos hsr hbr))]
  · unfold samples_per_symbol pyInt
    rw [if_pos (by norm_num)]
    rw [show (48000 : ℚ) / 2400 = ((20 : ℤ) : ℚ) by norm_num]
    rw [Int.floor_intCast]

/-- Witness for `c8_thm` at the default rates. -/
theorem c8_thm_witness :
    samples_per_symbol 48000 2400 = ⌊(48000 : ℚ) / 2400⌋ ∧
    samples_per_symbol 48000 2400 = 20 :=
  c8_thm 48000 2400 (by norm_num) (by norm_num)

/-- Claim C9: the analyzer returns a report only for inputs of even non-zero
byte length: every odd-length input fails in `struct.unpack` (the stray byte
is not dropped), the empty input fails at `np.min` of an empty array, and any
returned report implies the input was of even non-zero length. -/
theorem c9_thm (data : List ℕ) :
    (data.length % 2 = 1 → analyze_pcm data = none) ∧
    (data = [] → analyze_pcm data = none) ∧
    (∀ rep, analyze_pcm data = some rep → data.length % 2 = 0 ∧ data ≠ []) := by
  refine ⟨?_, ?_, ?_⟩
  · intro hodd
    have hne : data.length ≠ 2 * (data.length / 2) := by omega
    simp only [analyze_pcm]
    rw [if_pos hne]
  · rintro rfl
    rfl
  · intro rep hrep
    simp only [analyze_pcm] at hrep
    by_cases h1 : data.length ≠ 2 * (data.length / 2)
    · rw [if_pos h1] at hrep
      exact absurd hrep (by simp)
    · push_neg at h1
      rw [if_neg (by omega)] at hrep
      by_cases h2 : data.length / 2 = 0
      · rw [if_pos h2] at hrep
        exact absurd hrep (by simp)
      · refine ⟨by omega, ?_⟩
        intro hnil
        rw [hnil] at h2
        simp at h2

/-- Witness for `c9_thm` at the odd-length input [1, 2, 3]. -/
theorem c9_thm_witness : analyze_pcm [1, 2, 3] = none :=
  (c9_thm [1, 2, 3]).1 (by decide)

/-- numpy round of an exact integer is that integer. -/
theorem npRound_intCast (n : ℤ) : npRound ((n : ℚ)) = n := by
  unfold npRound
  rw [Int.floor_intCast]
  rw [if_pos (by norm_num)]

/-- Claim C7: the preamble decoder's 8-PSK symbol index depends only on the
phase of a non-zero sample, sends each phase 45k degrees (k = 0..7) to index
k, and wraps every phase in [337.5, 360) degrees back to index 0 (numpy's
round-half-to-even sends -0.5 to 0). -/
theorem c7_thm (amp : ℚ) (hamp : 0 < amp) :
    (∀ k : Fin 8, psk8Symbol amp (45 * ((k : ℕ) : ℚ)) = ((k : ℕ) : ℤ)) ∧
    (∀ φ : ℚ, 337.5 ≤ φ → φ < 360 → psk8Symbol amp φ = 0) ∧
    (∀ amp2 φ : ℚ, 0 < amp2 → psk8Symbol amp φ = psk8Symbol amp2 φ) := by
  refine ⟨?_, ?_, fun amp2 φ _ => rfl⟩
  · intro k
    fin_cases k
    · show psk8Symbol amp (45 * ((0 : ℕ) : ℚ)) = ((0 : ℕ) : ℤ)
      simp only [psk8Symbol, npAngleDeg]
      rw [if_pos (by norm_num)]
      rw [show (45 : ℚ) * ((0 : ℕ) : ℚ) / 45 = ((0 : ℤ) : ℚ) by norm_num,
        npRound_intCast]
      decide
    · show psk8Symbol amp (45 * ((1 : ℕ) : ℚ)) = ((1 : ℕ) : ℤ)
      simp only [psk8Symbol, npAngleDeg]
      rw [if_pos (by norm_num)]
      rw [show (45 : ℚ) * ((1 : ℕ) : ℚ) / 45 = ((1 : ℤ) : ℚ) by norm_num,
        npRound_intCast]
      decide
    · show psk8Symbol amp (45 * ((2 : ℕ) : ℚ)) = ((2 : ℕ) : ℤ)
      simp only [psk8Symbol, npAngleDeg]
      rw [if_pos (by norm_num)]
      rw [show (45 : ℚ) * ((2 : ℕ) : ℚ) / 45 = ((2 : ℤ) : ℚ) by norm_num,
        npRound_intCast]
      decide
    · show psk8Symbol amp (45 * ((3 : ℕ) : ℚ)) = ((3 : ℕ) : ℤ)
      simp only [psk8Symbol, npAngleDeg]
      rw [if_pos (by norm_num)]
      rw [show (45 : ℚ) * ((3 : ℕ) : ℚ) / 45 = ((3 : ℤ) : ℚ) by norm_num,
        npRound_intCast]
      decide
    · show psk8Symbol amp (45 * ((4 : ℕ) : ℚ)) = ((4 : ℕ) : ℤ)
      simp only [psk8Symbol, npAngleDeg]
      rw [if_pos (by norm_num)]
      rw [show (45 : ℚ) * ((4 : ℕ) : ℚ) / 45 = ((4 : ℤ) : ℚ) by norm_num,
        npRound_intCast]
      decide
    · show psk8Symbol amp (45 * ((5 : ℕ) : ℚ)) = ((5 : ℕ) : ℤ)
      simp only [psk8Symbol, npAngleDeg]
      rw [if_neg (by norm_num)]
      rw [show ((45 : ℚ) * ((5 : ℕ) : ℚ) - 360) / 45 = ((-3 : ℤ) : ℚ)
          by norm_num,
        npRound_intCast]
      decide
    · show psk8Symbol amp (45 * ((6 : ℕ) : ℚ)) = ((6 : ℕ) : ℤ)
      simp only [psk8Symbol, npAngleDeg]
      rw [if_neg (by norm_num)]
      rw [show ((45 : ℚ) * ((6 : ℕ) : ℚ) - 360) / 45 = ((-2 : ℤ) : ℚ)
          by norm_num,
        npRound_intCast]
      decide
    · show psk8Symbol amp (45 * ((7 : ℕ) : ℚ)) = ((7 : ℕ) : ℤ)
      simp only [psk8Symbol, npAngleDeg]
      rw [if_neg (by norm_num)]
      rw [show ((45 : ℚ) * ((7 : ℕ) : ℚ) - 360) / 45 = ((-1 : ℤ) : ℚ)
          by norm_num,
        npRound_intCast]
      decide
  · intro φ hlo hhi
    have hlo6 : (675 : ℚ) / 2 ≤ φ := by
      have h375 : (337.5 : ℚ) = 675 / 2 := by norm_num
      linarith [h375 ▸ hlo]
    simp only [psk8Symbol, npAngleDeg]
    rw [if_neg (by linarith)]
    have hx1 : -(1 / 2 : ℚ) ≤ (φ - 360) / 45 := by linarith
    have hx2 : (φ - 360) / 45 < 0 := by linarith
    have hfloor : ⌊(φ - 360) / 45⌋ = -1 := by
      rw [Int.floor_eq_iff]
      constructor
      · push_cast
        linarith
      · push_cast
        linarith
    simp only [npRound, hfloor]
    rw [if_neg (by push_cast; linarith)]
    rcases lt_or_eq_of_le hx1 with htie | htie
    · rw [if_pos (by push_cast; linarith)]
      decide
    · rw [if_neg (by push_cast; linarith), if_neg (by decide)]
      decide

/-- Witness for `c7_thm`: at unit amplitude, phase 340 degrees maps to
symbol index 0. -/
theorem c7_thm_witness : psk8Symbol 1 340 = 0 :=
  (c7_thm 1 (by norm_num)).2.1 340 (by norm_num) (by norm_num)

end M110A
